import Mathlib

/-!
Verification of the Onebox email-aggregator backend (`main.py`, `schemas.py`):
the rule-based classifier, the MIME body extractor, the IMAP sync
orchestrator, and the bag-of-words reply suggester, shallowly embedded as
executable Lean definitions.
-/

namespace Onebox

/-- Python's `str` truthiness-based `a or b` for optional strings:
`None` and `""` are falsy. -/
def pyOrO (a b : Option String) : Option String :=
  match a with
  | some s => if s = "" then b else some s
  | none => b

/-- Python's `a or d` collapsing an optional string to a default. -/
def pyOrD (a : Option String) (d : String) : String :=
  match a with
  | some s => if s = "" then d else s
  | none => d

/-- Prefix test on character lists (helper for the substring test that
models Python's `in` operator on `str`). -/
def isPre : List Char → List Char → Bool
  | [], _ => true
  | _ :: _, [] => false
  | a :: as, b :: bs => a == b && isPre as bs

/-- `isSub kw t` models Python's `kw in t` substring containment. -/
def isSub (kw : List Char) : List Char → Bool
  | [] => kw.isEmpty
  | c :: ts => isPre kw (c :: ts) || isSub kw ts

/-! ### Classifier (`categorize_email`, main.py lines 135-148) -/

/-- The concatenated lower-cased text
`f"{subject or ''} \n {body or ''}".lower()` on which the classifier's
keyword tests run, as a character list. -/
def classText (subject body : Option String) : List Char :=
  ((subject.getD "") ++ " \n " ++ (body.getD "")).toList.map Char.toLower

/-- `any(k in text for k in ks)`. -/
def anyKw (text : List Char) (ks : List (List Char)) : Bool :=
  ks.any (fun k => isSub k text)

/-- Rule-1 keywords ("Out of Office"). -/
def oooKws : List (List Char) :=
  ["out of office".toList, "ooo".toList, "vacation auto-reply".toList,
   "automatic reply".toList]

/-- Rule-2 keywords ("Not Interested"). -/
def notIntKws : List (List Char) :=
  ["not interested".toList, "no longer interested".toList,
   "unsubscribe".toList]

/-- Rule-3 meeting-intent keywords. -/
def meetingKws : List (List Char) :=
  ["meeting".toList, "calendar".toList, "schedule".toList,
   "book a time".toList, "let\x27s meet".toList]

/-- Rule-3 scheduling-artifact keywords. -/
def bookingKws : List (List Char) :=
  ["book".toList, "link".toList, "schedule".toList, "slot".toList,
   "cal.com".toList, "calendly".toList]

/-- Rule-4 keywords ("Interested"). -/
def interestedKws : List (List Char) :=
  ["buy".toList, "interested".toList, "sounds good".toList,
   "let\x27s talk".toList, "let us talk".toList]

/-- Rule-5 keywords ("Spam"). -/
def spamKws : List (List Char) :=
  ["viagra".toList, "lottery".toList, "claim prize".toList,
   "crypto giveaway".toList, "spam".toList]

/-- `categorize_email` from main.py: ordered keyword rules over the
lower-cased subject+body text, first match wins, rule 3 requiring both a
meeting-intent and a scheduling-artifact keyword. -/
def categorize_email (subject body : Option String) : Option String :=
  let text := classText subject body
  if anyKw text oooKws then some "Out of Office"
  else if anyKw text notIntKws then some "Not Interested"
  else if anyKw text meetingKws && anyKw text bookingKws then
    some "Meeting Booked"
  else if anyKw text interestedKws then some "Interested"
  else if anyKw text spamKws then some "Spam"
  else none

/-! ### MIME body extraction (`extract_body`, main.py lines 151-173)

A part's `payload` field holds the text decoded from
`part.get_payload(decode=True)` (`safe_decode` drops invalid bytes; we
represent the decoded text directly); `none` models a missing payload and
`some ""` an empty one, both falsy in Python. `disp` is the
`Content-Disposition` header, `none` when absent (Python then tests
`"attachment" not in str(None)`, i.e. against the string `"None"`). -/

structure MimePart where
  ctype : String
  disp : Option String
  payload : Option String
  deriving DecidableEq, Repr

inductive MimeMsg where
  | multipart (parts : List MimePart)
  | single (ctype : String) (payload : Option String)
  deriving DecidableEq, Repr

/-- `str(part.get("Content-Disposition"))`. -/
def dispStr (d : Option String) : String := d.getD "None"

/-- `"attachment" in str(part.get("Content-Disposition"))`. -/
def hasAttach (p : MimePart) : Bool :=
  isSub "attachment".toList (dispStr p.disp).toList

/-- One step of the `msg.walk()` loop of `extract_body`: the accumulator is
the pair `(body_text, body_html)`. -/
def extractStep (acc : Option String × Option String) (p : MimePart) :
    Option String × Option String :=
  if p.ctype == "text/plain" && !hasAttach p then
    match p.payload with
    | some s => if s == "" then acc else (some s, acc.2)
    | none => acc
  else if p.ctype == "text/html" && !hasAttach p then
    match p.payload with
    | some s => if s == "" then acc else (acc.1, some s)
    | none => acc
  else acc

/-- `extract_body` from main.py: returns `(body_text, body_html)`. -/
def extract_body : MimeMsg → Option String × Option String
  | .multipart parts => parts.foldl extractStep (none, none)
  | .single ctype payload =>
    match payload with
    | some s =>
      if s == "" then (none, none)
      else if ctype == "text/html" then (none, some s) else (some s, none)
    | none => (none, none)

/-- A part that actually overwrites the accumulated body of content type
`ct`: right type, no attachment disposition, truthy payload. -/
def goodPart (ct : String) (p : MimePart) : Bool :=
  p.ctype == ct && !hasAttach p &&
    (match p.payload with | some s => !(s == "") | none => false)

/-- The decoded payload of the last `goodPart ct` part in the walk order,
if any. -/
def lastGood (ct : String) : List MimePart → Option String
  | [] => none
  | p :: ps =>
    match lastGood ct ps with
    | some v => some v
    | none => if goodPart ct p then some (p.payload.getD "") else none

/-- Modelled from the spec: the claimed selection rule — the payload of the
last part of content type `ct` without an attachment disposition, with no
regard to payload truthiness. -/
def lastClaimed (ct : String) : List MimePart → Option String
  | [] => none
  | p :: ps =>
    match lastClaimed ct ps with
    | some v => some v
    | none =>
      if p.ctype == ct && !hasAttach p then some (p.payload.getD "")
      else none

/-- Overwrite-or-keep combinator used to state the fold invariant. -/
def ovr (o : Option String) (a : Option String) : Option String :=
  match o with
  | some v => some v
  | none => a

/-! ### Persisted message record (schemas.py `EmailMessage` / the `doc`
dict built in `sync_account`). Timestamps are modelled as naturals; the
source field `to` is spelled `to_` because `to` is reserved in Lean. -/

structure MessageRecord where
  account_id : String
  message_id : String
  uid : Option Nat
  folder : String
  subject : Option String
  sender : Option String
  to_ : List String
  cc : List String
  date : Nat
  snippet : String
  body_text : Option String
  body_html : Option String
  labels : List String
  ai_category : Option String
  raw_headers : List (String × String)
  created_at : Nat
  updated_at : Nat
  deriving DecidableEq, Repr

/-! ### Reply suggestion (`simple_score` / `suggest_reply`,
main.py lines 377-410) -/

/-- Whitespace for Python's no-argument `str.split()` and `str.strip()`. -/
def isWsB (c : Char) : Bool :=
  c == ' ' || c == '\n' || c == '\t' || c == '\r'

/-- Helper for `splitWs`: accumulates the current word reversed. -/
def splitWsAux : List Char → List Char → List (List Char)
  | cur, [] => if cur.isEmpty then [] else [cur.reverse]
  | cur, c :: cs =>
    if isWsB c then
      if cur.isEmpty then splitWsAux [] cs
      else cur.reverse :: splitWsAux [] cs
    else splitWsAux (c :: cur) cs

/-- Python `str.split()` with no arguments: split on whitespace runs,
dropping empty chunks. -/
def splitWs (s : List Char) : List (List Char) := splitWsAux [] s

/-- `simple_score` from main.py: the size of the intersection of the two
lower-cased word sets. -/
def simple_score (query doc : String) : Nat :=
  let q := (splitWs (query.toList.map Char.toLower)).dedup
  let d := splitWs (doc.toList.map Char.toLower)
  (q.filter (fun w => d.contains w)).length

/-- An `agendadoc` reference document (schemas.py `AgendaDoc`). -/
structure AgendaDoc where
  title : String
  content : String
  tags : List String
  deriving DecidableEq, Repr

/-- The score a stored doc receives against the query:
`simple_score(query, f"{title} {content}")`. -/
def scoreFor (query : String) (d : AgendaDoc) : Nat :=
  simple_score query (d.title ++ " " ++ d.content)

/-- One iteration of the best-doc loop of `suggest_reply`; the accumulator
is `(best, best_score)` with `best_score` starting at `-1`. -/
def bestStep (query : String) (acc : Option AgendaDoc × Int)
    (d : AgendaDoc) : Option AgendaDoc × Int :=
  if (scoreFor query d : Int) > acc.2 then (some d, (scoreFor query d : Int))
  else acc

/-- The selection loop of `suggest_reply` over the stored docs. -/
def bestAgenda (query : String) (docs : List AgendaDoc) :
    Option AgendaDoc × Int :=
  docs.foldl (bestStep query) (none, -1)

/-- Modelled from the spec: "select the doc with the strictly highest
score (ties keep the first doc encountered in store iteration order)". -/
def firstBest (query : String) : List AgendaDoc → Option AgendaDoc
  | [] => none
  | d :: ds =>
    match firstBest query ds with
    | none => some d
    | some e => if scoreFor query e > scoreFor query d then some e else some d

/-- Python `str.strip()`. -/
def pyStrip (s : String) : String :=
  String.mk (((s.toList.dropWhile isWsB).reverse.dropWhile isWsB).reverse)

/-- `suggest_reply` from main.py, starting after the message lookup: builds
the query from the message, scores every stored doc, and composes the
templated reply. -/
def suggest_reply (em : MessageRecord) (docs : List AgendaDoc) : String :=
  let subj := pyOrD em.subject ""
  let body := pyOrD (pyOrO em.body_text em.body_html) ""
  let query := subj ++ " " ++ body
  let best := (bestAgenda query docs).1
  let reply := "Thank you for your email."
  let reply :=
    match best with
    | some d => reply ++ "\n\n" ++ d.content
    | none => reply
  let reply :=
    if em.ai_category == some "Interested" &&
        isSub "cal.com".toList
          (match best with | some d => d.content | none => "").toList then
      reply ++ "\n\nYou can book a slot using the link above."
    else reply
  pyStrip reply

/-! ### IMAP sync orchestrator (`sync_account`, main.py lines 185-270)

External collaborators are modelled through an environment: the IMAP
server's per-folder select/search/fetch behaviour, the MIME encoded-word
decoder (`decode_mime_words`, whose `try` body either succeeds or raises,
modelled by an `Option`-returning function) and the date parser
(`email.utils.parsedate_to_datetime`, likewise). A fetched message is
represented already parsed (`email.message_from_bytes`), with its headers
and MIME body structure. The Mongo collection `emailmessage` is a list of
`MessageRecord`s; `find_one` is the first match and `insert_one` appends. -/

structure RawMsg where
  messageId : Option String
  subjectHdr : Option String
  fromHdr : Option String
  toHdrs : List String
  ccHdrs : List String
  dateHdr : Option String
  headers : List (String × String)
  body : MimeMsg
  deriving DecidableEq, Repr

/-- Result of `M.search`: an uncaught exception, a non-`OK` status, or a
list of message handles (already decoded sequence numbers). -/
inductive SearchRes where
  | exn (e : String)
  | notOk
  | ok (handles : List String)
  deriving DecidableEq, Repr

/-- Result of `M.fetch` for one handle: an uncaught exception, any of the
skip conditions (non-`OK` status, empty data, no tuple part, falsy raw),
or a successfully fetched and parsed message. -/
inductive FetchRes where
  | exn (e : String)
  | skip
  | ok (m : RawMsg)
  deriving DecidableEq, Repr

/-- Outcome of `M.select(folder, readonly=True)`, per the stdlib
`imaplib` contract: the select succeeds (`okSel`); it raises, e.g. on a
broken connection (`exnSel`) — the only case the surrounding
`try/except: continue` catches; or the server answers `NO` for an
unselectable folder (`noSel`) — `imaplib.IMAP4.select` then *returns*
`('NO', data)` without raising and resets its state to `AUTH`, so the
`except` clause is not triggered and the following `M.search` raises
`imaplib.error("command SEARCH illegal in state AUTH")`. -/
inductive SelectRes where
  | okSel
  | exnSel
  | noSel
  deriving DecidableEq, Repr

/-- The account under sync plus the behaviour of every external
collaborator during one run. `select f` models `M.select(f)` (see
`SelectRes`); `search f days` models `M.search(None, f'(SINCE ...)')`
for the day window; `fetch f h` models `M.fetch(h, '(RFC822 UID)')` in
folder `f`; `now` is the single ingestion timestamp of the run. -/
structure SyncEnv where
  accountId : String
  username : String
  select : String → SelectRes
  search : String → Nat → SearchRes
  fetch : String → String → FetchRes
  mime : String → Option String
  dateParse : String → Option Nat
  now : Nat
  connectOk : Bool

/-- `decode_mime_words` from main.py: `None`/empty input gives `None`, a
decoder exception falls back to the raw header value. -/
def decodeMime (env : SyncEnv) : Option String → Option String
  | none => none
  | some s =>
    if s == "" then none
    else
      match env.mime s with
      | some t => some t
      | none => some s

/-- The guarded date parse of `sync_account`: missing or falsy `Date`
header gives `None`, and a parser exception is caught to `None`. -/
def parsedDate (env : SyncEnv) (m : RawMsg) : Option Nat :=
  match m.dateHdr with
  | none => none
  | some s => if s == "" then none else env.dateParse s

/-- `mid = msg.get('Message-ID') or f"uid-{safe_decode(num)}-{folder}-{username}"`. -/
def midOf (env : SyncEnv) (folder handle : String) (m : RawMsg) : String :=
  pyOrD m.messageId ("uid-" ++ handle ++ "-" ++ folder ++ "-" ++ env.username)

/-- The `doc` dictionary inserted for one new message. -/
def mkRecord (env : SyncEnv) (folder handle : String) (m : RawMsg) :
    MessageRecord :=
  let subject := decodeMime env m.subjectHdr
  let from_ := decodeMime env m.fromHdr
  let bodies := extract_body m.body
  let snippet := (pyOrD (pyOrO bodies.1 bodies.2) "").take 280
  { account_id := env.accountId
    message_id := midOf env folder handle m
    uid := none
    folder := folder
    subject := subject
    sender := from_
    to_ := m.toHdrs
    cc := m.ccHdrs
    date := (parsedDate env m).getD env.now
    snippet := snippet
    body_text := bodies.1
    body_html := bodies.2
    labels := []
    ai_category := categorize_email subject (pyOrO bodies.1 bodies.2)
    raw_headers := m.headers
    created_at := env.now
    updated_at := env.now }

/-- The dedup query
`find_one({"message_id": mid, "account_id": str(account['_id'])})`. -/
def matchesPair (acct mid : String) (r : MessageRecord) : Bool :=
  r.message_id == mid && r.account_id == acct

/-- Outcome of the folder/message loops: the store as mutated so far plus
either the running inserted count or an escaped exception. -/
inductive BodyResult where
  | okB (st : List MessageRecord) (n : Nat)
  | errB (st : List MessageRecord) (e : String)
  deriving Repr

/-- The store component of a loop outcome. -/
def bstore : BodyResult → List MessageRecord
  | .okB st _ => st
  | .errB st _ => st

/-- Sequencing of loop iterations: each iteration either updates the
store/count or breaks the whole run with an escaped exception (Python's
straight-line loop with `continue` inside `try`). -/
def runLoop {α : Type} (step : List MessageRecord → Nat → α → BodyResult) :
    List MessageRecord × Nat → List α → BodyResult
  | (st, n), [] => .okB st n
  | (st, n), x :: xs =>
    match step st n x with
    | .okB st₂ n₂ => runLoop step (st₂, n₂) xs
    | .errB st₂ e => .errB st₂ e

/-- The body of the inner `for num in id_list[-1000:]` loop for one
handle: fetch (skip conditions give `continue`, an exception escapes),
compute `mid`, dedup-check the store, classify and insert. -/
def handleStep (env : SyncEnv) (folder : String) (st : List MessageRecord)
    (n : Nat) (h : String) : BodyResult :=
  match env.fetch folder h with
  | .exn e => .errB st e
  | .skip => .okB st n
  | .ok m =>
    if (st.find? (matchesPair env.accountId
        (midOf env folder h m))).isSome then .okB st n
    else .okB (st ++ [mkRecord env folder h m]) (n + 1)

/-- The inner loop of `sync_account` over one folder's capped handles. -/
def runHandles (env : SyncEnv) (folder : String) :
    List MessageRecord × Nat → List String → BodyResult :=
  runLoop (handleStep env folder)

/-- The body of the `for folder in target_folders` loop for one folder: a
select *exception* is caught and skips the folder; a select answered
`NO` is not caught (see `SelectRes`), so the subsequent `M.search` on the
unselected session raises the state error, which escapes; with the folder
selected, a non-`OK` search skips the folder, a search exception escapes,
and otherwise the last 1000 handles of the search result
(`id_list[-1000:]`) are processed. -/
def folderStep (env : SyncEnv) (days : Nat) (st : List MessageRecord)
    (n : Nat) (f : String) : BodyResult :=
  match env.select f with
  | .exnSel => .okB st n
  | .noSel => .errB st "command SEARCH illegal in state AUTH"
  | .okSel =>
    match env.search f days with
    | .exn e => .errB st e
    | .notOk => .okB st n
    | .ok handles =>
      runHandles env f (st, n) (handles.drop (handles.length - 1000))

/-- The outer loop of `sync_account` over the target folders. -/
def runFolders (env : SyncEnv) (days : Nat) :
    List MessageRecord × Nat → List String → BodyResult :=
  runLoop (folderStep env days)

/-- `target_folders = folders or ["INBOX"]` (`None` and `[]` are falsy). -/
def targetFolders : Option (List String) → List String
  | some (f :: fs) => f :: fs
  | _ => ["INBOX"]

/-- `try: M.logout() except: pass` — always completes, whatever the
logout outcome. -/
def attemptLogout (logoutRes : Except String Unit) : Bool :=
  match logoutRes with
  | .ok _ => true
  | .error _ => true

/-- What one call of `sync_account` produces: the HTTP-level result
(`{"inserted": n}` or an `HTTPException`), the store after the run, and
whether `M.logout()` was attempted. -/
structure SyncOut where
  result : Except String Nat
  store : List MessageRecord
  logoutAttempted : Bool
  deriving Repr

/-- `sync_account` from main.py. `logoutRes` models whether the
`M.logout()` call would raise. A connect/login failure reports the 400
error before any session exists; otherwise the folder loop runs and — on
success or on an escaped exception — logout is attempted before the
result is reported. -/
def sync_account (env : SyncEnv) (folders : Option (List String))
    (days : Nat) (logoutRes : Except String Unit)
    (store : List MessageRecord) : SyncOut :=
  if env.connectOk = false then
    ⟨.error "IMAP login failed", store, false⟩
  else
    match runFolders env days (store, 0) (targetFolders folders) with
    | .okB st n => ⟨.ok n, st, attemptLogout logoutRes⟩
    | .errB st e => ⟨.error e, st, attemptLogout logoutRes⟩

/-- The spec's dedup invariant: at most one record per
`(account_id, message_id)` pair. -/
def UniqStore (st : List MessageRecord) : Prop :=
  List.Pairwise
    (fun r s => ¬(r.account_id = s.account_id ∧ r.message_id = s.message_id))
    st

/-- Number of stored records carrying a given `(account_id, message_id)`
pair. -/
def countPair (st : List MessageRecord) (acct mid : String) : Nat :=
  (st.filter (fun r => matchesPair acct mid r)).length

/-! ### Concrete environments used to instantiate the theorems -/

/-- A plain one-part message with a Message-ID and no Date header. -/
def msgW : RawMsg :=
  { messageId := some "<m1@x>"
    subjectHdr := some "Hello"
    fromHdr := some "Alice <a@x>"
    toHdrs := ["b@x"]
    ccHdrs := []
    dateHdr := none
    headers := [("Subject", "Hello")]
    body := .single "text/plain" (some "I am interested, sounds good") }

/-- One folder, one message, everything healthy. -/
def envW : SyncEnv :=
  { accountId := "a1"
    username := "u@x"
    select := fun _ => .okSel
    search := fun f _ => if f == "INBOX" then .ok ["1"] else .notOk
    fetch := fun f h => if f == "INBOX" && h == "1" then .ok msgW else .skip
    mime := fun s => some s
    dateParse := fun _ => none
    now := 1000
    connectOk := true }

/-- Same Message-ID fetched from two different folders (distinct copies). -/
def msgCopy (body : String) : RawMsg :=
  { messageId := some "<m1@x>"
    subjectHdr := some "s"
    fromHdr := some "f"
    toHdrs := []
    ccHdrs := []
    dateHdr := none
    headers := []
    body := .single "text/plain" (some body) }

/-- Account `a1` seeing the same Message-ID in folders `A` and `B`. -/
def envC2 : SyncEnv :=
  { accountId := "a1"
    username := "u"
    select := fun _ => .okSel
    search := fun _ _ => .ok ["7"]
    fetch := fun f _ =>
      if f == "A" then .ok (msgCopy "first copy")
      else .ok (msgCopy "second copy")
    mime := fun s => some s
    dateParse := fun _ => none
    now := 5
    connectOk := true }

/-- A second account syncing the same mailbox content. -/
def envC2b : SyncEnv := { envC2 with accountId := "a2" }

/-- First C2 scenario run: same account, folders `A` and `B`. -/
def outC2a : SyncOut := sync_account envC2 (some ["A", "B"]) 30 (.ok ()) []

/-- Second C2 scenario run: the other account, over the first run's
store. -/
def outC2b : SyncOut :=
  sync_account envC2b (some ["A", "B"]) 30 (.ok ()) outC2a.store

/-- Two plain-text parts, the second with an empty (falsy) payload. -/
def partsC5 : List MimePart :=
  [⟨"text/plain", none, some "hello"⟩, ⟨"text/plain", none, some ""⟩]

/-- A message with an unparseable `Date` header. -/
def msgC6 : RawMsg :=
  { messageId := some "<d@x>"
    subjectHdr := some "s"
    fromHdr := some "f"
    toHdrs := []
    ccHdrs := []
    dateHdr := some "not a date"
    headers := []
    body := .single "text/plain" (some "hi") }

/-- Every fetch returns msgC6; the date parser always fails. -/
def envC6 : SyncEnv :=
  { accountId := "a1"
    username := "u"
    select := fun _ => .okSel
    search := fun _ _ => .ok ["1"]
    fetch := fun _ _ => .ok msgC6
    mime := fun s => some s
    dateParse := fun _ => none
    now := 777
    connectOk := true }

/-- Selecting folder `BAD` raises (caught); selecting folder `Ghost`
returns `NO` without raising; everything else as in `envW`. -/
def envC7 : SyncEnv :=
  { envW with select := fun f =>
      if f == "BAD" then .exnSel
      else if f == "Ghost" then .noSel
      else .okSel }

/-! ### Proofs -/

theorem isPre_self_append (l s : List Char) : isPre l (l ++ s) = true := by
  induction l with
  | nil => rfl
  | cons a as ih => simp [isPre, ih]

theorem isSub_nil_kw (t : List Char) : isSub [] t = true := by
  cases t with
  | nil => rfl
  | cons c ts => simp [isSub, isPre]

theorem isPre_mono : ∀ {as bs s : List Char},
    isPre as bs = true → isPre as (bs ++ s) = true := by
  intro as
  induction as with
  | nil => intro bs s _; rfl
  | cons a tl ih =>
    intro bs s h
    cases bs with
    | nil => exact absurd h (by simp [isPre])
    | cons b bt =>
      simp only [isPre, Bool.and_eq_true] at h ⊢
      exact ⟨h.1, ih h.2⟩

/-- A substring of `t` is a substring of `t ++ s`. -/
theorem isSub_append_left {kw t : List Char} (s : List Char)
    (h : isSub kw t = true) : isSub kw (t ++ s) = true := by
  induction t with
  | nil =>
    simp [isSub, List.isEmpty_iff] at h
    subst h
    exact isSub_nil_kw s
  | cons c ts ih =>
    simp only [isSub, Bool.or_eq_true] at h ⊢
    cases h with
    | inl hp => exact Or.inl (isPre_mono hp)
    | inr hs => exact Or.inr (ih hs)

/-- `kw` occurs in any list that displays it between a prefix and a
suffix. -/
theorem isSub_sandwich (kw pre suf : List Char) :
    isSub kw (pre ++ kw ++ suf) = true := by
  induction pre with
  | nil =>
    simp only [List.nil_append]
    cases kw with
    | nil => exact isSub_nil_kw suf
    | cons a as =>
      simp only [isSub, Bool.or_eq_true]
      exact Or.inl (isPre_self_append (a :: as) suf)
  | cons p ps ih =>
    simp only [List.cons_append, isSub, Bool.or_eq_true]
    exact Or.inr ih

example : categorize_email (some "Re: demo") (some "I am interested, sounds good") =
    some "Interested" := by decide

example : categorize_email (some "Quick meeting") (some "book a slot on calendly") =
    some "Meeting Booked" := by decide

example : categorize_email none (some "please UNSUBSCRIBE me") =
    some "Not Interested" := by decide

example : categorize_email (some "hello") (some "nothing relevant") = none := by
  decide

theorem extractStep_fst (acc : Option String × Option String)
    (p : MimePart) :
    (extractStep acc p).1 =
      if goodPart "text/plain" p then some (p.payload.getD "") else acc.1 := by
  unfold extractStep goodPart
  rcases hpl : p.payload with _ | s <;>
    cases hct : (p.ctype == "text/plain") <;>
    cases hat : hasAttach p <;>
    simp [hpl, hct, hat] <;>
    (try split <;> simp_all) <;>
    (try split <;> simp_all)

theorem extractStep_snd (acc : Option String × Option String)
    (p : MimePart) :
    (extractStep acc p).2 =
      if goodPart "text/html" p then some (p.payload.getD "") else acc.2 := by
  have hne : ("text/plain" == "text/html") = false := by decide
  unfold extractStep goodPart
  rcases hpl : p.payload with _ | s <;>
    cases hct : (p.ctype == "text/plain") <;>
    cases hat : hasAttach p <;>
    simp [hpl, hct, hat] <;>
    (try simp [String.eq_of_beq hct] at hne ⊢) <;>
    (try split <;> simp_all) <;>
    (try split <;> simp_all)

theorem ovr_lastGood_cons (ct : String) (p : MimePart) (ps : List MimePart)
    (x : Option String) :
    ovr (lastGood ct (p :: ps)) x =
      ovr (lastGood ct ps)
        (if goodPart ct p then some (p.payload.getD "") else x) := by
  cases h : lastGood ct ps with
  | some v => simp [lastGood, h, ovr]
  | none =>
    cases hg : goodPart ct p <;> simp [lastGood, h, ovr, hg]

theorem foldl_extractStep (parts : List MimePart) :
    ∀ a b : Option String,
      parts.foldl extractStep (a, b) =
        (ovr (lastGood "text/plain" parts) a,
         ovr (lastGood "text/html" parts) b) := by
  induction parts with
  | nil => intro a b; simp [lastGood, ovr]
  | cons p ps ih =>
    intro a b
    simp only [List.foldl_cons]
    rw [← Prod.mk.eta (p := extractStep (a, b) p), ih]
    rw [extractStep_fst, extractStep_snd, ovr_lastGood_cons, ovr_lastGood_cons]

/-- The two body fields of a decoded multipart message are the payloads of
the last truthy non-attachment `text/plain` and `text/html` parts. -/
theorem extract_body_multipart (parts : List MimePart) :
    extract_body (.multipart parts) =
      (lastGood "text/plain" parts, lastGood "text/html" parts) := by
  show parts.foldl extractStep (none, none) = _
  rw [foldl_extractStep]
  cases h1 : lastGood "text/plain" parts <;>
    cases h2 : lastGood "text/html" parts <;> simp [ovr]

theorem firstBest_score_le (query : String) (d : AgendaDoc)
    (ds : List AgendaDoc) {e : AgendaDoc}
    (h : firstBest query (d :: ds) = some e) :
    scoreFor query d ≤ scoreFor query e := by
  rw [show firstBest query (d :: ds) =
      (match firstBest query ds with
       | none => some d
       | some e =>
         if scoreFor query e > scoreFor query d then some e else some d)
      from rfl] at h
  cases hm : firstBest query ds with
  | none => simp [hm] at h; subst h; exact Nat.le_refl _
  | some g =>
    simp only [hm] at h
    by_cases hgt : scoreFor query g > scoreFor query d
    · rw [if_pos hgt] at h
      injection h with h
      subst h
      omega
    · rw [if_neg hgt] at h
      injection h with h
      subst h
      exact Nat.le_refl _

theorem firstBest_cons (query : String) (d : AgendaDoc)
    (ds : List AgendaDoc) :
    firstBest query (d :: ds) =
      match firstBest query ds with
      | none => some d
      | some e =>
        if scoreFor query e > scoreFor query d then some e else some d := rfl

theorem bestAgenda_go (query : String) :
    ∀ (ds : List AgendaDoc) (b : AgendaDoc),
      ∃ e, firstBest query (b :: ds) = some e ∧
        ds.foldl (bestStep query) (some b, (scoreFor query b : Int)) =
          (some e, (scoreFor query e : Int)) := by
  intro ds
  induction ds with
  | nil =>
    intro b
    exact ⟨b, rfl, rfl⟩
  | cons d ds ih =>
    intro b
    rw [List.foldl_cons]
    by_cases hdb : scoreFor query b < scoreFor query d
    · have hstep : bestStep query (some b, (scoreFor query b : Int)) d =
          (some d, (scoreFor query d : Int)) := by
        have h0 : ((scoreFor query b : Int)) < (scoreFor query d : Int) := by
          exact_mod_cast hdb
        unfold bestStep
        split
        · rfl
        · next hc => exact absurd h0 hc
      rw [hstep]
      obtain ⟨e, he, hfold⟩ := ih d
      refine ⟨e, ?_, hfold⟩
      have hde : scoreFor query d ≤ scoreFor query e :=
        firstBest_score_le query d ds he
      rw [firstBest_cons, he]
      show (if scoreFor query e > scoreFor query b then some e else some b) =
        some e
      rw [if_pos (by omega)]
    · have hstep : bestStep query (some b, (scoreFor query b : Int)) d =
          (some b, (scoreFor query b : Int)) := by
        have h0 : ¬ ((scoreFor query b : Int) < (scoreFor query d : Int)) :=
          fun hc => hdb (by exact_mod_cast hc)
        unfold bestStep
        split
        · next hc => exact absurd hc h0
        · rfl
      rw [hstep]
      obtain ⟨e, he, hfold⟩ := ih b
      refine ⟨e, ?_, hfold⟩
      rw [firstBest_cons]
      cases hg : firstBest query ds with
      | none =>
        have he' : some b = some e := by
          rw [firstBest_cons, hg] at he
          exact he
        have hd2 : firstBest query (d :: ds) = some d := by
          rw [firstBest_cons, hg]
        rw [hd2]
        show (if scoreFor query d > scoreFor query b then some d else some b) =
          some e
        rw [if_neg (by omega), he']
      | some g =>
        have he' :
            (if scoreFor query g > scoreFor query b then some g else some b) =
              some e := by
          rw [firstBest_cons, hg] at he
          exact he
        have hd2 : firstBest query (d :: ds) =
            (if scoreFor query g > scoreFor query d then some g else some d) := by
          rw [firstBest_cons, hg]
        rw [hd2]
        by_cases hgd : scoreFor query g > scoreFor query d
        · rw [if_pos hgd]
          show (if scoreFor query g > scoreFor query b then some g else some b) =
            some e
          exact he'
        · rw [if_neg hgd]
          show (if scoreFor query d > scoreFor query b then some d else some b) =
            some e
          rw [if_neg (by omega)]
          rw [if_neg (by omega)] at he'
          exact he'

/-- The loop of `suggest_reply` selects exactly the first doc of maximal
score (the spec-side `firstBest`). -/
theorem bestAgenda_eq_firstBest (query : String) (docs : List AgendaDoc) :
    (bestAgenda query docs).1 = firstBest query docs := by
  cases docs with
  | nil => rfl
  | cons d ds =>
    obtain ⟨e, he, hfold⟩ := bestAgenda_go query ds d
    unfold bestAgenda
    rw [List.foldl_cons]
    have hstep : bestStep query (none, -1) d =
        (some d, (scoreFor query d : Int)) := by
      have h0 : (-1 : Int) < (scoreFor query d : Int) := by
        have h1 : (0 : Int) ≤ (scoreFor query d : Int) := Int.natCast_nonneg _
        omega
      unfold bestStep
      split
      · rfl
      · next hc => exact absurd h0 hc
    rw [hstep, hfold, he]

theorem runLoop_nil {α : Type}
    (step : List MessageRecord → Nat → α → BodyResult)
    (st : List MessageRecord) (n : Nat) :
    runLoop step (st, n) [] = .okB st n := rfl

theorem runLoop_cons {α : Type}
    (step : List MessageRecord → Nat → α → BodyResult)
    (st : List MessageRecord) (n : Nat) (x : α) (xs : List α) :
    runLoop step (st, n) (x :: xs) =
      match step st n x with
      | .okB st₂ n₂ => runLoop step (st₂, n₂) xs
      | .errB st₂ e => .errB st₂ e := rfl

/-- An iteration can only append to the store. -/
theorem runLoop_subset {α : Type}
    {step : List MessageRecord → Nat → α → BodyResult}
    (hstep : ∀ st n x, st ⊆ bstore (step st n x)) :
    ∀ (xs : List α) (st : List MessageRecord) (n : Nat),
      st ⊆ bstore (runLoop step (st, n) xs) := by
  intro xs
  induction xs with
  | nil => intro st n; exact List.Subset.refl st
  | cons x xs ih =>
    intro st n
    rw [runLoop_cons]
    cases hx : step st n x with
    | okB st₂ n₂ =>
      have h1 : st ⊆ st₂ := by
        have := hstep st n x
        rw [hx] at this
        exact this
      exact List.Subset.trans h1 (ih st₂ n₂)
    | errB st₂ e =>
      have := hstep st n x
      rw [hx] at this
      exact this

/-- Re-running a loop that completed without an exception, from any store
that extends its final store, is a no-op on the store. -/
theorem runLoop_rerun {α : Type}
    {step : List MessageRecord → Nat → α → BodyResult}
    (hsub : ∀ st n x, st ⊆ bstore (step st n x))
    (hre : ∀ st n x st₂ n₂ big k, step st n x = .okB st₂ n₂ → st₂ ⊆ big →
      step big k x = .okB big k) :
    ∀ (xs : List α) (st : List MessageRecord) (n : Nat)
      (st' : List MessageRecord) (n' : Nat),
      runLoop step (st, n) xs = .okB st' n' →
      ∀ (big : List MessageRecord) (k : Nat), st' ⊆ big →
        runLoop step (big, k) xs = .okB big k := by
  intro xs
  induction xs with
  | nil =>
    intro st n st' n' hrun big k _
    exact runLoop_nil step big k
  | cons x xs ih =>
    intro st n st' n' hrun big k hbig
    rw [runLoop_cons] at hrun
    cases hx : step st n x with
    | okB st₂ n₂ =>
      rw [hx] at hrun
      have hrun₂ : runLoop step (st₂, n₂) xs = .okB st' n' := hrun
      have hst₂ : st₂ ⊆ st' := by
        have := runLoop_subset hsub xs st₂ n₂
        rw [hrun₂] at this
        exact this
      rw [runLoop_cons, hre st n x st₂ n₂ big k hx
        (List.Subset.trans hst₂ hbig)]
      exact ih st₂ n₂ st' n' hrun₂ big k hbig
    | errB st₂ e =>
      rw [hx] at hrun
      have hrun₂ : BodyResult.errB st₂ e = BodyResult.okB st' n' := hrun
      cases hrun₂

/-- Loop iterations preserve any store invariant that each step
preserves. -/
theorem runLoop_inv {α : Type} {P : List MessageRecord → Prop}
    {step : List MessageRecord → Nat → α → BodyResult}
    (hstep : ∀ st n x, P st → P (bstore (step st n x))) :
    ∀ (xs : List α) (st : List MessageRecord) (n : Nat),
      P st → P (bstore (runLoop step (st, n) xs)) := by
  intro xs
  induction xs with
  | nil => intro st n hP; exact hP
  | cons x xs ih =>
    intro st n hP
    rw [runLoop_cons]
    cases hx : step st n x with
    | okB st₂ n₂ =>
      have := hstep st n x hP
      rw [hx] at this
      exact ih st₂ n₂ this
    | errB st₂ e =>
      have := hstep st n x hP
      rw [hx] at this
      exact this

/-- Every record in a loop's final store was in the initial store or was
produced by some step. -/
theorem runLoop_mem {α : Type} {Q : MessageRecord → Prop}
    {step : List MessageRecord → Nat → α → BodyResult}
    (hstep : ∀ st n x r, r ∈ bstore (step st n x) → r ∈ st ∨ Q r) :
    ∀ (xs : List α) (st : List MessageRecord) (n : Nat)
      (r : MessageRecord),
      r ∈ bstore (runLoop step (st, n) xs) → r ∈ st ∨ Q r := by
  intro xs
  induction xs with
  | nil => intro st n r hr; exact Or.inl hr
  | cons x xs ih =>
    intro st n r hr
    rw [runLoop_cons] at hr
    cases hx : step st n x with
    | okB st₂ n₂ =>
      rw [hx] at hr
      cases ih st₂ n₂ r hr with
      | inl h2 =>
        have := hstep st n x r
        rw [hx] at this
        exact this h2
      | inr hq => exact Or.inr hq
    | errB st₂ e =>
      rw [hx] at hr
      have := hstep st n x r
      rw [hx] at this
      exact this hr

theorem mkRecord_account_id (env : SyncEnv) (folder h : String)
    (m : RawMsg) : (mkRecord env folder h m).account_id = env.accountId := rfl

theorem mkRecord_message_id (env : SyncEnv) (folder h : String)
    (m : RawMsg) :
    (mkRecord env folder h m).message_id = midOf env folder h m := rfl

theorem mkRecord_uid (env : SyncEnv) (folder h : String) (m : RawMsg) :
    (mkRecord env folder h m).uid = none := rfl

theorem mkRecord_date (env : SyncEnv) (folder h : String) (m : RawMsg) :
    (mkRecord env folder h m).date = (parsedDate env m).getD env.now := rfl

theorem matchesPair_mkRecord (env : SyncEnv) (folder h : String)
    (m : RawMsg) :
    matchesPair env.accountId (midOf env folder h m)
      (mkRecord env folder h m) = true := by
  simp [matchesPair, mkRecord]

theorem find?_isSome_sub {α : Type} {p : α → Bool} {l₁ l₂ : List α}
    (hsub : l₁ ⊆ l₂) (hf : (l₁.find? p).isSome = true) :
    (l₂.find? p).isSome = true := by
  rw [List.find?_isSome] at hf ⊢
  obtain ⟨x, hx, hp⟩ := hf
  exact ⟨x, hsub hx, hp⟩

theorem handleStep_subset (env : SyncEnv) (folder : String)
    (st : List MessageRecord) (n : Nat) (h : String) :
    st ⊆ bstore (handleStep env folder st n h) := by
  unfold handleStep
  split
  · exact List.Subset.refl st
  · exact List.Subset.refl st
  · split
    · exact List.Subset.refl st
    · exact List.subset_append_left st _

theorem handleStep_rerun (env : SyncEnv) (folder : String) :
    ∀ (st : List MessageRecord) (n : Nat) (h : String)
      (st₂ : List MessageRecord) (n₂ : Nat)
      (big : List MessageRecord) (k : Nat),
      handleStep env folder st n h = .okB st₂ n₂ → st₂ ⊆ big →
      handleStep env folder big k h = .okB big k := by
  intro st n h st₂ n₂ big k hstep hsub
  unfold handleStep at hstep ⊢
  cases hf : env.fetch folder h with
  | exn e =>
    rw [hf] at hstep
    have h2 : BodyResult.errB st e = BodyResult.okB st₂ n₂ := hstep
    cases h2
  | skip => rfl
  | ok m =>
    rw [hf] at hstep
    have hstep₂ :
        (if (st.find? (matchesPair env.accountId
            (midOf env folder h m))).isSome = true then
          BodyResult.okB st n
        else
          BodyResult.okB (st ++ [mkRecord env folder h m]) (n + 1)) =
        BodyResult.okB st₂ n₂ := hstep
    have hfind : (big.find? (matchesPair env.accountId
        (midOf env folder h m))).isSome = true := by
      by_cases hex : (st.find? (matchesPair env.accountId
          (midOf env folder h m))).isSome = true
      · rw [if_pos hex] at hstep₂
        injection hstep₂ with h1 _
        exact find?_isSome_sub (fun r hr => hsub (h1 ▸ hr)) hex
      · rw [if_neg hex] at hstep₂
        injection hstep₂ with h1 _
        have hrec : mkRecord env folder h m ∈ big := by
          apply hsub
          rw [← h1]
          simp
        rw [List.find?_isSome]
        exact ⟨mkRecord env folder h m, hrec,
          matchesPair_mkRecord env folder h m⟩
    show (if (big.find? (matchesPair env.accountId
        (midOf env folder h m))).isSome = true then
        BodyResult.okB big k
      else
        BodyResult.okB (big ++ [mkRecord env folder h m]) (k + 1)) =
      BodyResult.okB big k
    rw [if_pos hfind]

theorem handleStep_uniq (env : SyncEnv) (folder : String)
    (st : List MessageRecord) (n : Nat) (h : String)
    (hU : UniqStore st) :
    UniqStore (bstore (handleStep env folder st n h)) := by
  unfold handleStep
  split
  · exact hU
  · exact hU
  · rename_i m hf
    split
    · exact hU
    · rename_i hex
      have hnone : st.find? (matchesPair env.accountId
          (midOf env folder h m)) = none := by
        cases hfe : st.find? (matchesPair env.accountId
            (midOf env folder h m)) with
        | none => rfl
        | some r => exact absurd (by rw [hfe]; rfl) hex
      have hall := List.find?_eq_none.mp hnone
      show UniqStore (st ++ [mkRecord env folder h m])
      unfold UniqStore at hU ⊢
      rw [List.pairwise_append]
      refine ⟨hU, List.pairwise_singleton _ _, ?_⟩
      intro a ha b hb
      rw [List.mem_singleton] at hb
      subst hb
      intro hcon
      apply hall a ha
      have h1 : a.account_id = env.accountId := by
        rw [hcon.1, mkRecord_account_id]
      have h2 : a.message_id = midOf env folder h m := by
        rw [hcon.2, mkRecord_message_id]
      simp [matchesPair, h1, h2]

theorem handleStep_uid (env : SyncEnv) (folder : String)
    (st : List MessageRecord) (n : Nat) (h : String) (r : MessageRecord)
    (hr : r ∈ bstore (handleStep env folder st n h)) :
    r ∈ st ∨ r.uid = none := by
  unfold handleStep at hr
  revert hr
  split
  · exact fun hr => Or.inl hr
  · exact fun hr => Or.inl hr
  · rename_i m hf
    split
    · exact fun hr => Or.inl hr
    · intro hr
      have hr₂ : r ∈ st ++ [mkRecord env folder h m] := hr
      rw [List.mem_append, List.mem_singleton] at hr₂
      cases hr₂ with
      | inl h2 => exact Or.inl h2
      | inr h2 => exact Or.inr (h2 ▸ mkRecord_uid env folder h m)

theorem folderStep_subset (env : SyncEnv) (days : Nat)
    (st : List MessageRecord) (n : Nat) (f : String) :
    st ⊆ bstore (folderStep env days st n f) := by
  unfold folderStep
  split
  · exact List.Subset.refl st
  · exact List.Subset.refl st
  · split
    · exact List.Subset.refl st
    · exact List.Subset.refl st
    · exact runLoop_subset (handleStep_subset env f) _ st n

theorem folderStep_rerun (env : SyncEnv) (days : Nat) :
    ∀ (st : List MessageRecord) (n : Nat) (f : String)
      (st₂ : List MessageRecord) (n₂ : Nat)
      (big : List MessageRecord) (k : Nat),
      folderStep env days st n f = .okB st₂ n₂ → st₂ ⊆ big →
      folderStep env days big k f = .okB big k := by
  intro st n f st₂ n₂ big k hstep hsub
  unfold folderStep at hstep ⊢
  cases hsel : env.select f with
  | okSel =>
    rw [hsel] at hstep
    cases hse : env.search f days with
    | exn e =>
      rw [hse] at hstep
      have h2 : BodyResult.errB st e = BodyResult.okB st₂ n₂ := hstep
      cases h2
    | notOk =>
      rfl
    | ok handles =>
      rw [hse] at hstep
      have hstep₂ : runLoop (handleStep env f) (st, n)
          (handles.drop (handles.length - 1000)) = .okB st₂ n₂ := hstep
      exact runLoop_rerun (handleStep_subset env f)
        (handleStep_rerun env f) _ st n st₂ n₂ hstep₂ big k hsub
  | exnSel => rfl
  | noSel =>
    rw [hsel] at hstep
    have h2 : BodyResult.errB st "command SEARCH illegal in state AUTH" =
        BodyResult.okB st₂ n₂ := hstep
    cases h2

theorem folderStep_uniq (env : SyncEnv) (days : Nat)
    (st : List MessageRecord) (n : Nat) (f : String)
    (hU : UniqStore st) :
    UniqStore (bstore (folderStep env days st n f)) := by
  unfold folderStep
  split
  · exact hU
  · exact hU
  · split
    · exact hU
    · exact hU
    · exact runLoop_inv (fun st n x => handleStep_uniq env f st n x) _ st n hU

theorem folderStep_uid (env : SyncEnv) (days : Nat)
    (st : List MessageRecord) (n : Nat) (f : String) (r : MessageRecord)
    (hr : r ∈ bstore (folderStep env days st n f)) :
    r ∈ st ∨ r.uid = none := by
  unfold folderStep at hr
  revert hr
  split
  · exact fun hr => Or.inl hr
  · exact fun hr => Or.inl hr
  · split
    · exact fun hr => Or.inl hr
    · exact fun hr => Or.inl hr
    · exact fun hr =>
        runLoop_mem (fun st n x r => handleStep_uid env f st n x r) _
          st n r hr

example : (sync_account envW none 30 (.ok ()) []).result = .ok 1 := by rfl

example :
    (sync_account envW none 30 (.ok ())
      ((sync_account envW none 30 (.ok ()) []).store)).result = .ok 0 := by
  rfl

example : outC2a.result = .ok 1 := by rfl

example : outC2a.store.length = 1 := by rfl

example : outC2b.store.length = 2 := by rfl

example : countPair outC2b.store "a1" "<m1@x>" = 1 := by rfl

example : countPair outC2b.store "a2" "<m1@x>" = 1 := by rfl

/-! ### Helper lemmas about the classifier text -/

theorem anyKw_of_mem {t k : List Char} {ks : List (List Char)}
    (hk : k ∈ ks) (h : isSub k t = true) : anyKw t ks = true := by
  rw [anyKw, List.any_eq_true]
  exact ⟨k, hk, h⟩

theorem anyKw_false_forall {t : List Char} {ks : List (List Char)}
    (h : anyKw t ks = false) : ∀ k ∈ ks, isSub k t = false := by
  rw [anyKw, List.any_eq_false] at h
  intro k hk
  cases hik : isSub k t with
  | false => rfl
  | true => exact absurd hik (h k hk)

/-- If no keyword of `ks` occurs in the extended text `t ++ ext`, none
occurs in `t` either. -/
theorem anyKw_false_of_append {t ext : List Char} {ks : List (List Char)}
    (h : anyKw (t ++ ext) ks = false) : anyKw t ks = false := by
  rw [anyKw, List.any_eq_false] at h ⊢
  intro k hk
  intro hik
  exact h k hk (isSub_append_left ext hik)

/-- Appending to the body appends the (lower-cased) extension to the
classifier text. -/
theorem classText_body_append (s : Option String) (b ext : String) :
    classText s (some (b ++ ext)) =
      classText s (some b) ++ ext.toList.map Char.toLower := by
  unfold classText
  show ((s.getD "" ++ " \n " ++ (b ++ ext)).data.map Char.toLower) = _
  rw [← String.append_assoc, String.data_append, List.map_append]
  rfl

theorem sync_account_login {env : SyncEnv} (folders : Option (List String))
    (days : Nat) (lg : Except String Unit) (store : List MessageRecord)
    (hc : env.connectOk = false) :
    sync_account env folders days lg store =
      ⟨.error "IMAP login failed", store, false⟩ := by
  unfold sync_account
  rw [if_pos hc]

theorem sync_account_ok {env : SyncEnv} (folders : Option (List String))
    (days : Nat) (lg : Except String Unit) (store : List MessageRecord)
    {st : List MessageRecord} {n : Nat}
    (hc : ¬ env.connectOk = false)
    (hrun : runFolders env days (store, 0) (targetFolders folders) =
      .okB st n) :
    sync_account env folders days lg store =
      ⟨.ok n, st, attemptLogout lg⟩ := by
  unfold sync_account
  rw [if_neg hc, hrun]

theorem sync_account_err {env : SyncEnv} (folders : Option (List String))
    (days : Nat) (lg : Except String Unit) (store : List MessageRecord)
    {st : List MessageRecord} {e : String}
    (hc : ¬ env.connectOk = false)
    (hrun : runFolders env days (store, 0) (targetFolders folders) =
      .errB st e) :
    sync_account env folders days lg store =
      ⟨.error e, st, attemptLogout lg⟩ := by
  unfold sync_account
  rw [if_neg hc, hrun]

/-- After any sync call the store is either untouched (login failure) or
exactly the folder loop's final store. -/
theorem sync_store_cases (env : SyncEnv) (folders : Option (List String))
    (days : Nat) (lg : Except String Unit) (store : List MessageRecord) :
    (sync_account env folders days lg store).store = store ∨
    (sync_account env folders days lg store).store =
      bstore (runFolders env days (store, 0) (targetFolders folders)) := by
  by_cases hc : env.connectOk = false
  · rw [sync_account_login folders days lg store hc]
    exact Or.inl rfl
  · cases hrun : runFolders env days (store, 0) (targetFolders folders) with
    | okB st n =>
      rw [sync_account_ok folders days lg store hc hrun]
      exact Or.inr rfl
    | errB st e =>
      rw [sync_account_err folders days lg store hc hrun]
      exact Or.inr rfl

/-! ### Claim theorems -/

/-- C1: running `sync_account` twice with identical inputs (same account,
folders, day window, mailbox behaviour) inserts records only on the first
run: if the first run completes with some inserted count, the second run
over the resulting store completes with inserted count 0 and leaves the
store unchanged. -/
theorem sync_idempotent (env : SyncEnv) (folders : Option (List String))
    (days : Nat) (lg : Except String Unit) (store : List MessageRecord)
    (n : Nat)
    (h : (sync_account env folders days lg store).result = .ok n) :
    (sync_account env folders days lg
        ((sync_account env folders days lg store).store)).result = .ok 0 ∧
    (sync_account env folders days lg
        ((sync_account env folders days lg store).store)).store =
      (sync_account env folders days lg store).store := by
  by_cases hc : env.connectOk = false
  · rw [sync_account_login folders days lg store hc] at h
    have h2 : (Except.error "IMAP login failed" : Except String Nat) =
        Except.ok n := h
    cases h2
  · cases hrun : runFolders env days (store, 0) (targetFolders folders) with
    | okB st n' =>
      rw [sync_account_ok folders days lg store hc hrun]
      have hrr : runFolders env days (st, 0) (targetFolders folders) =
          .okB st 0 :=
        runLoop_rerun (folderStep_subset env days) (folderStep_rerun env days)
          _ store 0 st n' hrun st 0 (List.Subset.refl st)
      show (sync_account env folders days lg st).result = .ok 0 ∧
        (sync_account env folders days lg st).store = st
      rw [sync_account_ok folders days lg st hc hrr]
      exact ⟨rfl, rfl⟩
    | errB st e =>
      rw [sync_account_err folders days lg store hc hrun] at h
      have h2 : (Except.error e : Except String Nat) = Except.ok n := h
      cases h2

/-- C1 witness: in the concrete environment `envW` the first run inserts
one record and the second run inserts nothing and keeps the store. -/
theorem sync_idempotent_witness :
    (sync_account envW none 30 (.ok ())
        ((sync_account envW none 30 (.ok ()) []).store)).result = .ok 0 ∧
    (sync_account envW none 30 (.ok ())
        ((sync_account envW none 30 (.ok ()) []).store)).store =
      (sync_account envW none 30 (.ok ()) []).store :=
  sync_idempotent envW none 30 (.ok ()) [] 1 rfl

/-- C2: the dedup key is `(account_id, message_id)` — every sync run
preserves the invariant that at most one record exists per pair; in the
concrete scenario the same Message-ID seen in folders `A` and `B` of
account `a1` is stored once (second occurrence skipped, inserted count
1), while syncing the same mailbox under account `a2` adds a second
record, one per account. -/
theorem sync_dedup_key :
    (∀ (env : SyncEnv) (folders : Option (List String)) (days : Nat)
      (lg : Except String Unit) (store : List MessageRecord),
      UniqStore store →
      UniqStore (sync_account env folders days lg store).store)
    ∧ outC2a.result = .ok 1
    ∧ outC2a.store.length = 1
    ∧ countPair outC2a.store "a1" "<m1@x>" = 1
    ∧ outC2b.store.length = 2
    ∧ countPair outC2b.store "a1" "<m1@x>" = 1
    ∧ countPair outC2b.store "a2" "<m1@x>" = 1 := by
  refine ⟨?_, rfl, rfl, rfl, rfl, rfl, rfl⟩
  intro env folders days lg store hU
  cases sync_store_cases env folders days lg store with
  | inl he => rw [he]; exact hU
  | inr he =>
    rw [he]
    exact runLoop_inv (fun st n f => folderStep_uniq env days st n f) _
      store 0 hU

/-- C2 witness: the invariant-preservation part applied to the concrete
environment `envW` starting from the empty (trivially unique) store. -/
theorem sync_dedup_key_witness :
    UniqStore (sync_account envW none 30 (.ok ()) []).store :=
  sync_dedup_key.1 envW none 30 (.ok ()) [] List.Pairwise.nil

/-- C3 counterexample: a text containing both "unsubscribe" and
"interested" that nevertheless classifies as "Out of Office" because the
rule-1 keyword "ooo" also occurs — the claim's universal statement fails
as written. -/
theorem classify_unsubscribe_cex :
    isSub "unsubscribe".toList
      (classText (some "ooo") (some "please unsubscribe, I was interested"))
      = true ∧
    isSub "interested".toList
      (classText (some "ooo") (some "please unsubscribe, I was interested"))
      = true ∧
    categorize_email (some "ooo") (some "please unsubscribe, I was interested")
      = some "Out of Office" ∧
    categorize_email (some "ooo") (some "please unsubscribe, I was interested")
      ≠ some "Not Interested" := by
  decide

/-- C3 (amended): if the concatenated lower-cased text contains both
"unsubscribe" and "interested" and none of the rule-1 ("Out of Office")
keywords, the classifier returns "Not Interested", not "Interested"
(rule 2 precedes rule 4, first match wins). -/
theorem classify_unsubscribe_amended (s b : Option String)
    (hun : isSub "unsubscribe".toList (classText s b) = true)
    (hint : isSub "interested".toList (classText s b) = true)
    (hooo : anyKw (classText s b) oooKws = false) :
    categorize_email s b = some "Not Interested" := by
  have h2 : anyKw (classText s b) notIntKws = true :=
    anyKw_of_mem (by decide) hun
  simp [categorize_email, hooo, h2]

/-- C3 witness: a concrete text with "unsubscribe" and "interested" and
no Out-of-Office keyword classifies "Not Interested". -/
theorem classify_unsubscribe_witness :
    categorize_email none (some "please unsubscribe me, I was interested")
      = some "Not Interested" :=
  classify_unsubscribe_amended none
    (some "please unsubscribe me, I was interested")
    (by decide) (by decide) (by decide)

/-- C4: a message containing "meeting" but no scheduling-artifact keyword
and no other rule's keywords classifies as `none`; the same message with
" calendly" appended classifies as "Meeting Booked" (rule 3 fires only
when a meeting-intent keyword and a scheduling-artifact keyword are both
present). -/
theorem classify_meeting_conjunction (s : Option String) (b : String)
    (hmeet : isSub "meeting".toList (classText s (some b)) = true)
    (hbook : anyKw (classText s (some b)) bookingKws = false)
    (hooo : anyKw (classText s (some (b ++ " calendly"))) oooKws = false)
    (hni : anyKw (classText s (some (b ++ " calendly"))) notIntKws = false)
    (hint : anyKw (classText s (some b)) interestedKws = false)
    (hspam : anyKw (classText s (some b)) spamKws = false) :
    categorize_email s (some b) = none ∧
    categorize_email s (some (b ++ " calendly")) = some "Meeting Booked" := by
  have happ := classText_body_append s b " calendly"
  have hlc : (" calendly".toList.map Char.toLower) = " calendly".toList := by
    decide
  rw [hlc] at happ
  have hooo₀ : anyKw (classText s (some b)) oooKws = false :=
    anyKw_false_of_append (happ ▸ hooo)
  have hni₀ : anyKw (classText s (some b)) notIntKws = false :=
    anyKw_false_of_append (happ ▸ hni)
  constructor
  · simp [categorize_email, hooo₀, hni₀, hint, hspam, hbook]
  · have hmeet' :
        anyKw (classText s (some (b ++ " calendly"))) meetingKws = true := by
      apply anyKw_of_mem (k := "meeting".toList) (by decide)
      rw [happ]
      exact isSub_append_left _ hmeet
    have hcal :
        anyKw (classText s (some (b ++ " calendly"))) bookingKws = true := by
      apply anyKw_of_mem (k := "calendly".toList) (by decide)
      rw [happ]
      have hone : " calendly".toList = ' ' :: "calendly".toList := rfl
      have hsplit : classText s (some b) ++ " calendly".toList =
          (classText s (some b) ++ [' ']) ++ "calendly".toList ++ [] := by
        rw [hone]
        simp
      rw [hsplit]
      exact isSub_sandwich _ _ _
    simp [categorize_email, hooo, hni, hmeet', hcal]

/-- C4 witness: "team meeting tomorrow" classifies as `none`; with
" calendly" appended it classifies as "Meeting Booked". -/
theorem classify_meeting_conjunction_witness :
    categorize_email none (some "team meeting tomorrow") = none ∧
    categorize_email none (some ("team meeting tomorrow" ++ " calendly"))
      = some "Meeting Booked" :=
  classify_meeting_conjunction none "team meeting tomorrow"
    (by decide) (by decide) (by decide) (by decide) (by decide) (by decide)

/-- C5 counterexample: with a trailing `text/plain` part whose payload is
empty (falsy), `body_text` keeps the earlier part — it does not equal the
payload of the last non-attachment `text/plain` part, contradicting the
claim as stated. -/
theorem extract_body_last_cex :
    (extract_body (.multipart partsC5)).1 = some "hello" ∧
    lastClaimed "text/plain" partsC5 = some "" ∧
    (extract_body (.multipart partsC5)).1 ≠
      lastClaimed "text/plain" partsC5 := by
  decide

/-- C5 (amended): for every multipart message, `body_text` is the decoded
payload of the last `text/plain` part without an attachment disposition
whose payload is non-empty, and `body_html` likewise for `text/html`;
later qualifying parts overwrite earlier ones, but parts with missing or
empty payloads do not overwrite. -/
theorem extract_body_last_wins (parts : List MimePart) :
    extract_body (.multipart parts) =
      (lastGood "text/plain" parts, lastGood "text/html" parts) :=
  extract_body_multipart parts

/-- C6: when a message's `Date` header is missing or unparseable, the
record is still built and inserted without any error, and its `date`
field is the ingestion time `env.now`. -/
theorem sync_date_fallback (env : SyncEnv) (folder h : String) (m : RawMsg)
    (st : List MessageRecord) (n : Nat)
    (hf : env.fetch folder h = .ok m)
    (hd : parsedDate env m = none)
    (hnew : (st.find? (matchesPair env.accountId
      (midOf env folder h m))).isSome = false) :
    handleStep env folder st n h =
      .okB (st ++ [mkRecord env folder h m]) (n + 1) ∧
    (mkRecord env folder h m).date = env.now := by
  constructor
  · unfold handleStep
    rw [hf]
    show (if (st.find? (matchesPair env.accountId
          (midOf env folder h m))).isSome = true then
        BodyResult.okB st n
      else BodyResult.okB (st ++ [mkRecord env folder h m]) (n + 1)) = _
    rw [hnew, if_neg (by decide)]
  · rw [mkRecord_date, hd]
    rfl

/-- C6 witness: the message with `Date: not a date` under the failing
parser is inserted with `date = 777`, the run's ingestion time. -/
theorem sync_date_fallback_witness :
    handleStep envC6 "INBOX" [] 0 "1" =
      .okB [mkRecord envC6 "INBOX" "1" msgC6] 1 ∧
    (mkRecord envC6 "INBOX" "1" msgC6).date = 777 := by
  have h := sync_date_fallback envC6 "INBOX" "1" msgC6 [] 0 rfl rfl rfl
  simpa using h

/-- The failure modes the code does handle at folder granularity: a
*raising* select (caught by the `except: continue`) or a folder selected
fine whose search reports a non-`OK` status skip exactly that folder and
the run continues with the remaining folders. -/
theorem folderStep_skip_cases (env : SyncEnv) (days : Nat) (f : String)
    (fs : List String) (st : List MessageRecord) (n : Nat)
    (h : env.select f = .exnSel ∨
      (env.select f = .okSel ∧ env.search f days = .notOk)) :
    folderStep env days st n f = .okB st n ∧
    runFolders env days (st, n) (f :: fs) = runFolders env days (st, n) fs
    := by
  have hstep : folderStep env days st n f = .okB st n := by
    unfold folderStep
    rcases h with hsel | ⟨hsel, hsearch⟩
    · rw [hsel]
    · rw [hsel, hsearch]
  refine ⟨hstep, ?_⟩
  show runLoop (folderStep env days) (st, n) (f :: fs) =
    runLoop (folderStep env days) (st, n) fs
  rw [runLoop_cons, hstep]

/-- C7: the claim's skip-and-continue is not what the code does for the
canonical selection failure. In `envC7`, folder `Ghost` is unselectable:
`M.select` answers `NO` *without raising* (stdlib `imaplib` returns the
status and resets the state to `AUTH`), so the `except: continue` never
fires and the following `M.search` raises the state error, aborting the
whole run with an HTTP 500 — the store stays empty and no insertedCount
is returned, even though syncing `INBOX` alone would insert 1. Only a
select that *raises* (folder `BAD`) is skipped as the claim describes. -/
theorem sync_folder_skip_bug :
    (sync_account envC7 (some ["Ghost", "INBOX"]) 30 (.ok ()) []).result
      = .error "command SEARCH illegal in state AUTH" ∧
    (sync_account envC7 (some ["Ghost", "INBOX"]) 30 (.ok ()) []).store
      = [] ∧
    (sync_account envC7 (some ["INBOX"]) 30 (.ok ()) []).result = .ok 1 ∧
    (sync_account envC7 (some ["BAD", "INBOX"]) 30 (.ok ()) []).result
      = .ok 1 :=
  ⟨rfl, rfl, rfl, rfl⟩

/-- C8: once the session is open (connect succeeded), logout is attempted
on every exit path — normal completion or an escaped exception — and a
failing logout is swallowed: the reported result and the store do not
depend on the logout outcome. -/
theorem sync_logout_always (env : SyncEnv) (folders : Option (List String))
    (days : Nat) (l₁ l₂ : Except String Unit) (store : List MessageRecord)
    (hc : env.connectOk = true) :
    (sync_account env folders days l₁ store).logoutAttempted = true ∧
    (sync_account env folders days l₁ store).result =
      (sync_account env folders days l₂ store).result ∧
    (sync_account env folders days l₁ store).store =
      (sync_account env folders days l₂ store).store := by
  have hc' : ¬ env.connectOk = false := by
    rw [hc]
    intro h2
    cases h2
  cases hrun : runFolders env days (store, 0) (targetFolders folders) with
  | okB st n =>
    rw [sync_account_ok folders days l₁ store hc' hrun,
      sync_account_ok folders days l₂ store hc' hrun]
    refine ⟨?_, rfl, rfl⟩
    cases l₁ <;> rfl
  | errB st e =>
    rw [sync_account_err folders days l₁ store hc' hrun,
      sync_account_err folders days l₂ store hc' hrun]
    refine ⟨?_, rfl, rfl⟩
    cases l₁ <;> rfl

/-- C8 witness: in `envW`, a raising logout is attempted and swallowed —
same result and store as with a clean logout. -/
theorem sync_logout_always_witness :
    (sync_account envW none 30 (.error "logout boom") []).logoutAttempted
      = true ∧
    (sync_account envW none 30 (.error "logout boom") []).result =
      (sync_account envW none 30 (.ok ()) []).result ∧
    (sync_account envW none 30 (.error "logout boom") []).store =
      (sync_account envW none 30 (.ok ()) []).store :=
  sync_logout_always envW none 30 (.error "logout boom") (.ok ()) [] rfl

/-- C9: the suggestion engine picks the stored doc with the strictly
highest bag-of-words overlap score against the message text, keeping the
first doc encountered on ties (the loop equals the spec-side
`firstBest`); with an empty doc store the reply is the fixed greeting
alone. -/
theorem suggest_best_doc (query : String) (docs : List AgendaDoc)
    (em : MessageRecord) :
    (bestAgenda query docs).1 = firstBest query docs ∧
    suggest_reply em [] = "Thank you for your email." := by
  refine ⟨bestAgenda_eq_firstBest query docs, ?_⟩
  unfold suggest_reply
  simp only [bestAgenda, List.foldl_nil]
  rw [show isSub "cal.com".toList ("".toList) = false from rfl]
  rw [Bool.and_false]
  rw [if_neg (by decide)]
  decide

/-- C10: every record the pipeline builds has `uid = None` — `mkRecord`
always sets it to `none`, and a sync run over a store of `uid`-free
records yields a store of `uid`-free records; no operation ever writes a
non-null value. -/
theorem sync_uid_none :
    (∀ (env : SyncEnv) (folder h : String) (m : RawMsg),
      (mkRecord env folder h m).uid = none)
    ∧ (∀ (env : SyncEnv) (folders : Option (List String)) (days : Nat)
        (lg : Except String Unit) (store : List MessageRecord),
        (∀ r ∈ store, r.uid = none) →
        ∀ r ∈ (sync_account env folders days lg store).store,
          r.uid = none) := by
  refine ⟨fun env folder h m => rfl, ?_⟩
  intro env folders days lg store hstore r hr
  cases sync_store_cases env folders days lg store with
  | inl he =>
    rw [he] at hr
    exact hstore r hr
  | inr he =>
    rw [he] at hr
    cases runLoop_mem (fun st n f r => folderStep_uid env days st n f r) _
        store 0 r hr with
    | inl h2 => exact hstore r h2
    | inr h2 => exact h2

/-- C10 witness: the record inserted by the concrete run of `envW` has a
null `uid`. -/
theorem sync_uid_none_witness :
    (mkRecord envW "INBOX" "1" msgW).uid = none :=
  sync_uid_none.2 envW none 30 (.ok ()) []
    (fun r hr => nomatch hr) (mkRecord envW "INBOX" "1" msgW)
    (by
      rw [show (sync_account envW none 30 (.ok ()) []).store =
        [mkRecord envW "INBOX" "1" msgW] from rfl]
      exact List.mem_singleton_self _)

end Onebox
